import Mathlib

/-!
Shallow embedding of the DMI metadata parser (`crates/tinydmi`) and the
icon compositing/rendering code (`crates/dmm-tools/src/dmi.rs`,
`crates/dmm-tools/src/dmi/render.rs`) of the SpacemanDMM fork.

Modelling conventions:
* nom parsers over `&str` become functions `List Char → Option (List Char × α)`;
  `none` models a nom `Err::Error`.  No parser in the embedded code produces
  `Err::Failure` or `Err::Incomplete` (all inputs are complete and `cut` is
  never used), so a single failure case is faithful.
* Unbounded loops (`many0`, `many1`, `fold_many0`, the separated-list loop)
  are written with an explicit fuel argument; every iteration of the original
  loops consumes at least one input character (nom's zero-length-match checks
  are mirrored), so fuel `input.length + 1` is always sufficient and the
  out-of-fuel branch is unreachable at the wrappers' call sites.
* `f32` values are modelled as exact rationals `ℚ`.  Every float literal the
  claims touch (`4.0`, integral delays, `2.5`) is exactly representable in
  `f32`, so rounding never matters.  The `inf`/`nan` special forms accepted by
  `nom::number::complete::float` are not modelled; no embedded grammar context
  or claim involves them.
* `u32`/`u8` results of arithmetic that the source performs in a fixed-width
  type are reduced with an explicit `% 2^32` / `% 256` exactly where the
  source casts or where release-mode wrapping would occur.
* Rust `HashMap` / `IndexMap` are modelled as association lists; `IndexMap`
  preserves first-insertion order of keys, which the association list mirrors
  by appending new keys at the end.
-/

namespace tinydmi

/-! ## Low-level nom combinators -/

/-- `nom::bytes::complete::tag`: match an exact string prefix. -/
def tag (t : List Char) (input : List Char) : Option (List Char × List Char) :=
  if t.isPrefixOf input then some (input.drop t.length, t) else none

/-- `nom::character::complete::char`: match one exact character. -/
def charP (c : Char) (input : List Char) : Option (List Char × Char) :=
  match input with
  | [] => none
  | x :: rest => if x = c then some (rest, c) else none

/-- `nom::character::complete::none_of`: one character not in the given set. -/
def noneOf (bad : List Char) (input : List Char) : Option (List Char × Char) :=
  match input with
  | [] => none
  | x :: rest => if x ∈ bad then none else some (rest, x)

/-- `nom::character::complete::newline`: the character `'\n'`. -/
def newline (input : List Char) : Option (List Char × Char) :=
  charP '\n' input

/-- `nom::character::complete::digit1`: one or more ASCII digits. -/
def digit1 (input : List Char) : Option (List Char × List Char) :=
  let ds := input.takeWhile Char.isDigit
  if ds.isEmpty then none else some (input.dropWhile Char.isDigit, ds)

/-- `nom::character::complete::alpha1`: one or more ASCII letters. -/
def alpha1 (input : List Char) : Option (List Char × List Char) :=
  let ds := input.takeWhile Char.isAlpha
  if ds.isEmpty then none else some (input.dropWhile Char.isAlpha, ds)

/-- Characters matched by `nom::character::complete::space1` (space and tab). -/
def isNomSpace (c : Char) : Bool := c = ' ' ∨ c = '\t'

/-- `nom::character::complete::space1`: one or more spaces/tabs. -/
def space1 (input : List Char) : Option (List Char × List Char) :=
  let ds := input.takeWhile isNomSpace
  if ds.isEmpty then none else some (input.dropWhile isNomSpace, ds)

/-- Characters matched by `multispace0` (space, tab, CR, LF). -/
def isNomMultispace (c : Char) : Bool :=
  c = ' ' ∨ c = '\t' ∨ c = '\r' ∨ c = '\n'

/-- `nom::character::complete::multispace0`: zero or more whitespace chars. -/
def multispace0 (input : List Char) : Option (List Char × List Char) :=
  some (input.dropWhile isNomMultispace, input.takeWhile isNomMultispace)

/-- Digit run to its numeric value. -/
def digitsToNat (ds : List Char) : Nat :=
  ds.foldl (fun acc c => acc * 10 + (c.toNat - '0'.toNat)) 0

/-- `nom::character::complete::u32`: decimal digits with an overflow check
(nom returns an error when the accumulated value exceeds `u32::MAX`). -/
def nomU32 (input : List Char) : Option (List Char × Nat) :=
  match digit1 input with
  | none => none
  | some (rest, ds) =>
    let n := digitsToNat ds
    if n < 2 ^ 32 then some (rest, n) else none

/-- Recognition part of `nom::number::complete::float`: optional sign, then
either `digit1 ('.' digit0?)?` or `'.' digit1`, then an optional well-formed
exponent.  Returns the remaining input and the consumed characters.
(The `inf`/`nan` exceptional forms are not modelled; see the module header.) -/
def recognizeFloat (input : List Char) : Option (List Char × List Char) :=
  let (sgn, afterSign) :=
    match input with
    | '+' :: rest => (['+'], rest)
    | '-' :: rest => (['-'], rest)
    | _ => (([] : List Char), input)
  let body : Option (List Char × List Char) :=
    match digit1 afterSign with
    | some (rest, ds) =>
      match rest with
      | '.' :: rest2 =>
        let fs := rest2.takeWhile Char.isDigit
        some (rest2.dropWhile Char.isDigit, ds ++ '.' :: fs)
      | _ => some (rest, ds)
    | none =>
      match afterSign with
      | '.' :: rest2 =>
        (match digit1 rest2 with
         | some (rest3, fs) => some (rest3, '.' :: fs)
         | none => none)
      | _ => none
  match body with
  | none => none
  | some (rest, consumed) =>
    let withExp : Option (List Char × List Char) :=
      match rest with
      | e :: rest2 =>
        if e = 'e' ∨ e = 'E' then
          let (esgn, rest3) :=
            match rest2 with
            | '+' :: r => (['+'], r)
            | '-' :: r => (['-'], r)
            | _ => (([] : List Char), rest2)
          match digit1 rest3 with
          | some (rest4, eds) => some (rest4, e :: esgn ++ eds)
          | none => none
        else none
      | [] => none
    match withExp with
    | some (rest4, expPart) => some (rest4, sgn ++ consumed ++ expPart)
    | none => some (rest, sgn ++ consumed)

/-- Numeric value of a recognized float token, as an exact rational. -/
def floatTokenValue (tok : List Char) : ℚ :=
  let (sgn, rest) :=
    match tok with
    | '+' :: r => ((1 : ℚ), r)
    | '-' :: r => ((-1 : ℚ), r)
    | _ => ((1 : ℚ), tok)
  let mant := rest.takeWhile fun c => c ≠ 'e' ∧ c ≠ 'E'
  let expPart := (rest.dropWhile fun c => c ≠ 'e' ∧ c ≠ 'E').drop 1
  let intPart := mant.takeWhile fun c => c ≠ '.'
  let fracPart := (mant.dropWhile fun c => c ≠ '.').drop 1
  let base : ℚ :=
    (digitsToNat intPart : ℚ) + (digitsToNat fracPart : ℚ) / (10 : ℚ) ^ fracPart.length
  let expVal : ℤ :=
    match expPart with
    | '-' :: eds => -(digitsToNat eds : ℤ)
    | '+' :: eds => (digitsToNat eds : ℤ)
    | eds => (digitsToNat eds : ℤ)
  sgn * base * (10 : ℚ) ^ expVal

/-- `nom::number::complete::float`: recognize a float and convert its value. -/
def nomFloat (input : List Char) : Option (List Char × ℚ) :=
  match recognizeFloat input with
  | none => none
  | some (rest, tok) => some (rest, floatTokenValue tok)

/-! ## Generic nom combinators used by the embedded parsers -/

/-- `nom::combinator::map`. -/
def mapP {α β : Type} (p : List Char → Option (List Char × α)) (f : α → β)
    (input : List Char) : Option (List Char × β) :=
  match p input with
  | none => none
  | some (rest, a) => some (rest, f a)

/-- `nom::combinator::map_res`: the fallible mapping turns an `Except` failure
into a parse error. -/
def mapRes {α β : Type} (p : List Char → Option (List Char × α))
    (f : α → Except String β) (input : List Char) : Option (List Char × β) :=
  match p input with
  | none => none
  | some (rest, a) =>
    match f a with
    | .ok b => some (rest, b)
    | .error _ => none

/-- `nom::combinator::verify`. -/
def verifyP {α : Type} (p : List Char → Option (List Char × α)) (pred : α → Bool)
    (input : List Char) : Option (List Char × α) :=
  match p input with
  | none => none
  | some (rest, a) => if pred a then some (rest, a) else none

/-- `nom::sequence::pair`. -/
def pairP {α β : Type} (p : List Char → Option (List Char × α))
    (q : List Char → Option (List Char × β)) (input : List Char) :
    Option (List Char × (α × β)) :=
  match p input with
  | none => none
  | some (rest, a) =>
    match q rest with
    | none => none
    | some (rest2, b) => some (rest2, (a, b))

/-- `nom::sequence::terminated`. -/
def terminated {α β : Type} (p : List Char → Option (List Char × α))
    (q : List Char → Option (List Char × β)) (input : List Char) :
    Option (List Char × α) :=
  match p input with
  | none => none
  | some (rest, a) =>
    match q rest with
    | none => none
    | some (rest2, _) => some (rest2, a)

/-- `nom::sequence::delimited`. -/
def delimited {α β γ : Type} (l : List Char → Option (List Char × α))
    (p : List Char → Option (List Char × β))
    (r : List Char → Option (List Char × γ)) (input : List Char) :
    Option (List Char × β) :=
  match l input with
  | none => none
  | some (rest, _) =>
    match p rest with
    | none => none
    | some (rest2, b) =>
      match r rest2 with
      | none => none
      | some (rest3, _) => some (rest3, b)

/-- `nom::sequence::separated_pair`. -/
def separatedPair {α β γ : Type} (p : List Char → Option (List Char × α))
    (sep : List Char → Option (List Char × β))
    (q : List Char → Option (List Char × γ)) (input : List Char) :
    Option (List Char × (α × γ)) :=
  match p input with
  | none => none
  | some (rest, a) =>
    match sep rest with
    | none => none
    | some (rest2, _) =>
      match q rest2 with
      | none => none
      | some (rest3, c) => some (rest3, (a, c))

/-- `nom::combinator::all_consuming`: the wrapped parser must consume all input. -/
def allConsuming {α : Type} (p : List Char → Option (List Char × α))
    (input : List Char) : Option (List Char × α) :=
  match p input with
  | none => none
  | some (rest, a) => if rest.isEmpty then some (rest, a) else none

/-- Fuelled loop of `nom::multi::many0`; returns `none` on a zero-length match
(nom's infinite-loop protection) and when fuel runs out (unreachable for fuel
`> input.length`, since every iteration consumes at least one character). -/
def many0Loop {α : Type} (p : List Char → Option (List Char × α)) :
    Nat → List Char → List α → Option (List Char × List α)
  | 0, _, _ => none
  | fuel + 1, input, acc =>
    match p input with
    | none => some (input, acc.reverse)
    | some (rest, a) =>
      if rest.length = input.length then none
      else many0Loop p fuel rest (a :: acc)

/-- `nom::multi::many0`. -/
def many0 {α : Type} (p : List Char → Option (List Char × α))
    (input : List Char) : Option (List Char × List α) :=
  many0Loop p (input.length + 1) input []

/-- `nom::multi::many1`: one element, then the `many0` loop. -/
def many1 {α : Type} (p : List Char → Option (List Char × α))
    (input : List Char) : Option (List Char × List α) :=
  match p input with
  | none => none
  | some (rest, a) => many0Loop p (rest.length + 1) rest [a]

/-- Fuelled loop of `nom::multi::fold_many0` (zero-length matches rejected). -/
def foldMany0Loop {α β : Type} (p : List Char → Option (List Char × α))
    (g : β → α → β) : Nat → List Char → β → Option (List Char × β)
  | 0, _, _ => none
  | fuel + 1, input, acc =>
    match p input with
    | none => some (input, acc)
    | some (rest, a) =>
      if rest.length = input.length then none
      else foldMany0Loop p g fuel rest (g acc a)

/-- `nom::multi::fold_many0`. -/
def foldMany0 {α β : Type} (p : List Char → Option (List Char × α))
    (init : β) (g : β → α → β) (input : List Char) : Option (List Char × β) :=
  foldMany0Loop p g (input.length + 1) input init

/-- Fuelled loop of `SeparatedList1::process` from
`crates/tinydmi/src/parser/polyfill.rs`.  Unlike nom's `separated_list1`, a
failure of the *separator* is a parse error (`return Err(...)`), not the end
of the list; the list ends only when the separator matches but the element
parser then fails.  The zero-progress check (`i2.input_len() == len`) is
mirrored. -/
def sepList1Loop {α β : Type} (separator : List Char → Option (List Char × β))
    (p : List Char → Option (List Char × α)) :
    Nat → List Char → List α → Option (List Char × List α)
  | 0, _, _ => none
  | fuel + 1, i, res =>
    match separator i with
    | none => none
    | some (i1, _) =>
      match p i1 with
      | none => some (i, res.reverse)
      | some (i2, o) =>
        if i2.length = i.length then none
        else sepList1Loop separator p fuel i2 (o :: res)

/-- `separated_list1_nonoptional` from `polyfill.rs`: first element, then the
separator-mandatory loop. -/
def separatedList1Nonoptional {α β : Type}
    (separator : List Char → Option (List Char × β))
    (p : List Char → Option (List Char × α)) (input : List Char) :
    Option (List Char × List α) :=
  match p input with
  | none => none
  | some (i1, o) => sepList1Loop separator p (i1.length + 1) i1 [o]

/-! ## `values.rs` -/

/-- `quote` from `values.rs`. -/
def quote (input : List Char) : Option (List Char × Char) :=
  charP '"' input

/-- `decimal` from `values.rs` (the `'.'` character). -/
def decimal (input : List Char) : Option (List Char × Char) :=
  charP '.' input

/-- `character` from `values.rs`: any character except `'"'`. -/
def character (input : List Char) : Option (List Char × Char) :=
  noneOf ['"'] input

/-- `string` from `values.rs`: quote-delimited run of non-quote characters. -/
def string (input : List Char) : Option (List Char × String) :=
  mapP
    (delimited quote
      (foldMany0 character "" (fun s c => s.push c))
      quote)
    id input

/-- The `Value` enum from `values.rs` (`f32` modelled as `ℚ`). -/
inductive Value : Type
  | float (q : ℚ)
  | int (n : Nat)
  | str (s : String)
  | list (l : List ℚ)
  deriving DecidableEq, Repr

/-- `rec_float` from `values.rs`: `recognize((digit1, decimal, digit1))`. -/
def rec_float (input : List Char) : Option (List Char × List Char) :=
  match digit1 input with
  | none => none
  | some (rest, ds) =>
    match decimal rest with
    | none => none
    | some (rest2, _) =>
      match digit1 rest2 with
      | none => none
      | some (rest3, fs) => some (rest3, ds ++ '.' :: fs)

/-- `atom_float` from `values.rs`: `map_parser(rec_float, float)`. -/
def atom_float (input : List Char) : Option (List Char × Value) :=
  match rec_float input with
  | none => none
  | some (rest, tok) =>
    match nomFloat tok with
    | none => none
    | some (_, q) => some (rest, Value.float q)

/-- `atom_u32` from `values.rs`. -/
def atom_u32 (input : List Char) : Option (List Char × Value) :=
  mapP nomU32 Value.int input

/-- `atom_string` from `values.rs`. -/
def atom_string (input : List Char) : Option (List Char × Value) :=
  mapP string Value.str input

/-- `atom_list` from `values.rs`: a comma-separated float list via
`separated_list1_nonoptional`. -/
def atom_list (input : List Char) : Option (List Char × Value) :=
  mapP (separatedList1Nonoptional (tag [',']) nomFloat) Value.list input

/-- `atom` from `values.rs`: `alt((atom_list, atom_float, atom_u32, atom_string))`. -/
def atom (input : List Char) : Option (List Char × Value) :=
  match atom_list input with
  | some r => some r
  | none =>
    match atom_float input with
    | some r => some r
    | none =>
      match atom_u32 input with
      | some r => some r
      | none => atom_string input

/-! ## `key_value.rs` -/

/-- The `Key` enum from `key_value.rs`. -/
inductive Key : Type
  | version | width | height | state | dirs | frames | delay
  | «loop» | rewind | movement | hotspot
  | unk (s : String)
  deriving DecidableEq, Repr

/-- `key` from `key_value.rs`: an `alpha1` run mapped to a known key, or `Unk`. -/
def key (input : List Char) : Option (List Char × Key) :=
  match alpha1 input with
  | none => none
  | some (tail, k) =>
    some (tail,
      if k = "version".toList then Key.version
      else if k = "width".toList then Key.width
      else if k = "height".toList then Key.height
      else if k = "state".toList then Key.state
      else if k = "dirs".toList then Key.dirs
      else if k = "frames".toList then Key.frames
      else if k = "delay".toList then Key.delay
      else if k = "loop".toList then Key.loop
      else if k = "rewind".toList then Key.rewind
      else if k = "movement".toList then Key.movement
      else if k = "hotspot".toList then Key.hotspot
      else Key.unk (String.mk k))

/-- The `Dirs` enum from `key_value.rs`. -/
inductive Dirs : Type
  | One | Four | Eight
  deriving DecidableEq, Repr

/-- `impl TryFrom<u32> for Dirs`. -/
def Dirs.tryFromU32 (value : Nat) : Except String Dirs :=
  match value with
  | 1 => .ok Dirs.One
  | 4 => .ok Dirs.Four
  | 8 => .ok Dirs.Eight
  | _ => .error "Invalid value for dirs"

/-- `Dirs::get_num` from `key_value.rs`. -/
def Dirs.get_num : Dirs → Nat
  | Dirs.One => 1
  | Dirs.Four => 4
  | Dirs.Eight => 8

/-- The `KeyValue` enum from `key_value.rs`. -/
inductive KeyValue : Type
  | version (v : ℚ)
  | width (w : Nat)
  | height (h : Nat)
  | state (name : String)
  | dirs (d : Dirs)
  | frames (f : Nat)
  | delay (l : List ℚ)
  | «loop» (b : Bool)
  | rewind (b : Bool)
  | movement (b : Bool)
  | hotspot (l : List ℚ)
  | unk (k : String) (v : Value)
  deriving DecidableEq, Repr

/-- The match inside `key_value`'s `map_res` closure: combine a `Key` with a
`Value`, failing on a key/value type mismatch. -/
def combineKeyValue : Key × Value → Except String KeyValue
  | (Key.version, Value.float x) => .ok (KeyValue.version x)
  | (Key.width, Value.int x) => .ok (KeyValue.width x)
  | (Key.height, Value.int x) => .ok (KeyValue.height x)
  | (Key.state, Value.str x) => .ok (KeyValue.state x)
  | (Key.dirs, Value.int x) => (Dirs.tryFromU32 x).map KeyValue.dirs
  | (Key.frames, Value.int x) => .ok (KeyValue.frames x)
  | (Key.delay, Value.list x) => .ok (KeyValue.delay x)
  | (Key.loop, Value.int x) => .ok (KeyValue.loop (x > 0))
  | (Key.rewind, Value.int x) => .ok (KeyValue.rewind (x > 0))
  | (Key.movement, Value.int x) => .ok (KeyValue.movement (x > 0))
  | (Key.hotspot, Value.list x) => .ok (KeyValue.hotspot x)
  | (Key.unk k, a) => .ok (KeyValue.unk k a)
  | _ => .error "Unable to find matching key/value"

/-- `key_value` from `key_value.rs`:
`map_res(separated_pair(key, tag(" = "), atom), ...)`. -/
def key_value (input : List Char) : Option (List Char × KeyValue) :=
  mapRes (separatedPair key (tag " = ".toList) atom) combineKeyValue input

/-! ## `state.rs` -/

/-- Association-list model of `HashMap<String, Value>`; `insert` overwrites an
existing key's value in place. -/
def mapInsert (m : List (String × Value)) (k : String) (v : Value) :
    List (String × Value) :=
  match m with
  | [] => [(k, v)]
  | (k', v') :: rest =>
    if k' = k then (k', v) :: rest else (k', v') :: mapInsert rest k v

/-- The `State` struct from `state.rs` (`f32` as `ℚ`; `hotspot` keeps the
3-element list whose length the parser checked). -/
structure State : Type where
  name : String
  dirs : Dirs
  frames : Nat
  delays : Option (List ℚ)
  «loop» : Bool
  rewind : Bool
  movement : Bool
  hotspot : Option (List ℚ)
  unk : Option (List (String × Value))
  deriving DecidableEq, Repr

/-- `State::is_animated` from `state.rs`.  The source matches `1 => false,
2.. => true, _ => unreachable!()`; the `unreachable!()` arm (reached exactly
when `frames = 0`) is modelled as `none` since it panics. -/
def State.is_animated (s : State) : Option Bool :=
  match s.frames with
  | 1 => some false
  | _ + 2 => some true
  | 0 => none

/-- `State::num_sprites` from `state.rs`: direction cardinality times frame
count (the `u32` multiply, reduced as the source's cast chain would be). -/
def State.num_sprites (s : State) : Nat :=
  (s.dirs.get_num * s.frames) % 2 ^ 32

/-- Loop state of `State::try_from`'s accumulation over the key/values. -/
structure StateAcc : Type where
  dirs : Option Dirs
  frames : Nat
  delays : Option (List ℚ)
  «loop» : Bool
  rewind : Bool
  movement : Bool
  hotspot : Option (List ℚ)
  unk : Option (List (String × Value))

/-- One iteration of the `for kv in kvs` loop in
`impl TryFrom<(KeyValue, Vec<KeyValue>)> for State` (`state.rs`).  Note the
source guards: a `frames` key is accepted whenever the accumulator still
holds `frames == 1`, and a `delay` key whenever no delay list was stored yet
(the error text brands the second delay as missing `frames`). -/
def stateStep (acc : StateAcc) : KeyValue → Except String StateAcc
  | KeyValue.dirs d => .ok { acc with dirs := some d }
  | KeyValue.frames f =>
    if acc.frames = 1 then .ok { acc with frames := f }
    else .error "Found `frames` in illegal position"
  | KeyValue.delay f =>
    if acc.delays.isNone then .ok { acc with delays := some f }
    else .error "Found `delay` key without `frames` key"
  | KeyValue.loop b => .ok { acc with «loop» := b }
  | KeyValue.rewind b => .ok { acc with rewind := b }
  | KeyValue.movement b => .ok { acc with movement := b }
  | KeyValue.hotspot h =>
    if h.length = 3 then .ok { acc with hotspot := some h }
    else .error "Hotspot information was not length 3"
  | KeyValue.unk k v =>
    .ok { acc with unk := some (mapInsert (acc.unk.getD []) k v) }
  | _ => .error "not allowed here"

/-- The `for` loop of `State::try_from`, with early return on error. -/
def stateFold (acc : StateAcc) : List KeyValue → Except String StateAcc
  | [] => .ok acc
  | kv :: rest =>
    match stateStep acc kv with
    | .error e => .error e
    | .ok acc' => stateFold acc' rest

/-- `State::try_from` from `state.rs`: fold the key/values, then require
`dirs` to have been set. -/
def State.tryFrom (name : String) (kvs : List KeyValue) : Except String State :=
  match stateFold
      { dirs := none, frames := 1, delays := none, «loop» := false,
        rewind := false, movement := false, hotspot := none, unk := none }
      kvs with
  | .error e => .error e
  | .ok acc =>
    match acc.dirs with
    | none => .error "Required field `dirs` was not found"
    | some d =>
      .ok { name := name, dirs := d, frames := acc.frames,
            delays := acc.delays, «loop» := acc.loop, rewind := acc.rewind,
            movement := acc.movement, hotspot := acc.hotspot, unk := acc.unk }

/-- Extract the name from the first key/value (the `match state` at the top of
`State::try_from`; the `verify` in `state` guarantees it is a `State` key, the
`unreachable!()` arm is modelled as an error). -/
def stateName : KeyValue → Except String String
  | KeyValue.state n => .ok n
  | _ => .error "unreachable"

/-- `state` from `state.rs`: a `state = "name"` line, then `many1` indented
key/value lines, combined through `State::try_from`. -/
def state (input : List Char) : Option (List Char × State) :=
  mapRes
    (pairP
      (verifyP (terminated key_value newline)
        (fun v => match v with | KeyValue.state _ => true | _ => false))
      (many1 (delimited space1 key_value newline)))
    (fun (first, props) =>
      match stateName first with
      | .error e => .error e
      | .ok n => State.tryFrom n props)
    input

/-! ## `dir.rs` -/

/-- The `Dir` enum from `dir.rs` (the 8-way compass type). -/
inductive Dir : Type
  | North | South | East | West
  | Northeast | Northwest | Southeast | Southwest
  deriving DecidableEq, Repr

/-- `Dir::to_int` (the discriminant values assigned in `dir.rs`). -/
def Dir.to_int : Dir → Int
  | Dir.North => 1
  | Dir.South => 2
  | Dir.East => 4
  | Dir.West => 8
  | Dir.Northeast => 5
  | Dir.Northwest => 9
  | Dir.Southeast => 6
  | Dir.Southwest => 10

/-- `Dir::from_int` from `dir.rs`. -/
def Dir.from_int (int : Int) : Option Dir :=
  if int = 1 then some Dir.North
  else if int = 2 then some Dir.South
  else if int = 4 then some Dir.East
  else if int = 8 then some Dir.West
  else if int = 5 then some Dir.Northeast
  else if int = 9 then some Dir.Northwest
  else if int = 6 then some Dir.Southeast
  else if int = 10 then some Dir.Southwest
  else none

/-- `Dir::flip` from `dir.rs`. -/
def Dir.flip : Dir → Dir
  | Dir.North => Dir.South
  | Dir.South => Dir.North
  | Dir.East => Dir.West
  | Dir.West => Dir.East
  | Dir.Northeast => Dir.Southwest
  | Dir.Northwest => Dir.Southeast
  | Dir.Southeast => Dir.Northwest
  | Dir.Southwest => Dir.Northeast

/-- `Dir::clockwise_45` from `dir.rs`. -/
def Dir.clockwise_45 : Dir → Dir
  | Dir.North => Dir.Northeast
  | Dir.Northeast => Dir.East
  | Dir.East => Dir.Southeast
  | Dir.Southeast => Dir.South
  | Dir.South => Dir.Southwest
  | Dir.Southwest => Dir.West
  | Dir.West => Dir.Northwest
  | Dir.Northwest => Dir.North

/-- `Dir::counterclockwise_45` from `dir.rs`. -/
def Dir.counterclockwise_45 : Dir → Dir
  | Dir.North => Dir.Northwest
  | Dir.Northeast => Dir.North
  | Dir.East => Dir.Northeast
  | Dir.Southeast => Dir.East
  | Dir.South => Dir.Southeast
  | Dir.Southwest => Dir.South
  | Dir.West => Dir.Southwest
  | Dir.Northwest => Dir.West

/-- `Dir::clockwise_90` from `dir.rs` — transcribed verbatim, including the
`Dir::Southwest => Dir::Northeast` arm found in the source. -/
def Dir.clockwise_90 : Dir → Dir
  | Dir.North => Dir.East
  | Dir.South => Dir.West
  | Dir.East => Dir.South
  | Dir.West => Dir.North
  | Dir.Northeast => Dir.Southeast
  | Dir.Northwest => Dir.Northeast
  | Dir.Southeast => Dir.Southwest
  | Dir.Southwest => Dir.Northeast

/-- `Dir::counterclockwise_90` from `dir.rs`. -/
def Dir.counterclockwise_90 : Dir → Dir
  | Dir.North => Dir.West
  | Dir.South => Dir.East
  | Dir.East => Dir.North
  | Dir.West => Dir.South
  | Dir.Southeast => Dir.Northeast
  | Dir.Northeast => Dir.Northwest
  | Dir.Southwest => Dir.Southeast
  | Dir.Northwest => Dir.Southwest

/-! ## `metadata.rs` -/

/-- `begin_dmi` from `metadata.rs`. -/
def begin_dmi (input : List Char) : Option (List Char × List Char) :=
  terminated (tag "# BEGIN DMI".toList) newline input

/-- `end_dmi` from `metadata.rs`. -/
def end_dmi (input : List Char) : Option (List Char × List Char) :=
  terminated (tag "# END DMI".toList) multispace0 input

/-- The `Header` struct from `metadata.rs`. -/
structure Header : Type where
  version : ℚ
  width : Nat
  height : Nat
  unk : Option (List (String × Value))
  deriving DecidableEq, Repr

/-- Loop state of `Header::try_from`. -/
structure HeaderAcc : Type where
  width : Option Nat
  height : Option Nat
  unk : Option (List (String × Value))

/-- One iteration of the `for value in kvs` loop of `Header::try_from`. -/
def headerStep (acc : HeaderAcc) : KeyValue → Except String HeaderAcc
  | KeyValue.width w => .ok { acc with width := some w }
  | KeyValue.height h => .ok { acc with height := some h }
  | KeyValue.unk k v =>
    .ok { acc with unk := some (mapInsert (acc.unk.getD []) k v) }
  | _ => .error "not allowed here"

/-- The `for` loop of `Header::try_from`, with early return on error. -/
def headerFold (acc : HeaderAcc) : List KeyValue → Except String HeaderAcc
  | [] => .ok acc
  | kv :: rest =>
    match headerStep acc kv with
    | .error e => .error e
    | .ok acc' => headerFold acc' rest

/-- Extract the version from the first key/value of the header (the `verify`
in `header` guarantees a `Version`; its `unreachable!()` arm is an error). -/
def versionOf : KeyValue → Except String ℚ
  | KeyValue.version v => .ok v
  | _ => .error "unreachable"

/-- `Header::try_from` from `metadata.rs`: version must be exactly `4.0`,
`width`/`height` are required, unknown keys accumulate. -/
def Header.tryFrom (first : KeyValue) (kvs : List KeyValue) :
    Except String Header :=
  match versionOf first with
  | .error e => .error e
  | .ok version =>
    if version ≠ (4 : ℚ) then .error "Version not supported, only 4.0"
    else
      match headerFold { width := none, height := none, unk := none } kvs with
      | .error e => .error e
      | .ok acc =>
        match acc.width with
        | none => .error "Required field `width` was not found"
        | some w =>
          match acc.height with
          | none => .error "Required field `height` was not found"
          | some h =>
            .ok { version := version, width := w, height := h, unk := acc.unk }

/-- `header` from `metadata.rs`: a `version` line then `many1` indented
key/value lines, combined through `Header::try_from`. -/
def header (input : List Char) : Option (List Char × Header) :=
  mapRes
    (pairP
      (verifyP (terminated key_value newline)
        (fun v => match v with | KeyValue.version _ => true | _ => false))
      (many1 (delimited space1 key_value newline)))
    (fun (first, props) => Header.tryFrom first props)
    input

/-- `StateMap` from `metadata.rs`: an `IndexMap<String, Vec<(IconLocation,
State)>>` modelled as an insertion-ordered association list; `IconLocation`'s
wrapped `usize` is a `Nat`. -/
def StateMap : Type := List (String × List (Nat × State))

/-- `IndexMap::get`: lookup by key. -/
def StateMap.get (m : StateMap) (name : String) : Option (List (Nat × State)) :=
  match m with
  | [] => none
  | (k, v) :: rest => if k = name then some v else StateMap.get rest name

/-- `IndexMap::entry(name).or_default().push(entry)`: append to an existing
key's vector, or append a fresh key (at the end, preserving insertion order). -/
def StateMap.push (m : StateMap) (name : String) (entry : Nat × State) :
    StateMap :=
  match m with
  | [] => [(name, [entry])]
  | (k, v) :: rest =>
    if k = name then (k, v ++ [entry]) :: rest
    else (k, v) :: StateMap.push rest name entry

/-- The `Metadata` struct from `metadata.rs`. -/
structure Metadata : Type where
  header : Header
  states : StateMap

/-- `u32` wrap-around of the source's fixed-width arithmetic. -/
def u32 (n : Nat) : Nat := n % 2 ^ 32

/-- The body of the fold at the end of `metadata` (`metadata.rs` lines
221–228): push `(IconLocation(cursor), state)` under the state's name, then
advance the `u32` cursor by `state.frames * state.dirs.get_num()`. -/
def metadataFoldStep (acc : StateMap × Nat) (st : State) : StateMap × Nat :=
  (StateMap.push acc.1 st.name (acc.2, st),
    u32 (acc.2 + u32 (st.frames * st.dirs.get_num)))

/-- The fold at the end of `metadata`: a running cursor over the states in
declaration order assigns each one its starting cell `IconLocation`. -/
def buildStateMap (states : List State) : StateMap :=
  (states.foldl metadataFoldStep ([], 0)).1

/-- `metadata` from `metadata.rs`:
`all_consuming(delimited(begin_dmi, pair(header, many0(state)), end_dmi))`,
then the offset-assigning fold into the state map. -/
def metadata (input : List Char) : Option (List Char × Metadata) :=
  match allConsuming (delimited begin_dmi (pairP header (many0 state)) end_dmi)
      input with
  | none => none
  | some (tail, (hdr, states)) =>
    some (tail, { header := hdr, states := buildStateMap states })

/-- `Metadata::get_icon_state`: resolve an `IconIndex` (occurrence index and
name) to the stored `(IconLocation, State)` pair. -/
def Metadata.get_icon_state (m : Metadata) (index : Nat) (name : String) :
    Option (Nat × State) :=
  match m.states.get name with
  | none => none
  | some v => v.get? index

/-- The direction-slot match shared by `Metadata::get_index_of_dir` and
`Metadata::get_index_of_frame` (`metadata.rs` lines 156–166), transcribed
arm by arm in source order. -/
def dirIdx (dirs : Dirs) (dir : Dir) : Nat :=
  match dirs, dir with
  | Dirs.One, _ => 0
  | Dirs.Eight, Dir.Northwest => 7
  | Dirs.Eight, Dir.Northeast => 6
  | Dirs.Eight, Dir.Southwest => 5
  | Dirs.Eight, Dir.Southeast => 4
  | _, Dir.West => 3
  | _, Dir.East => 2
  | _, Dir.North => 1
  | _, _ => 0

/-- `Metadata::get_index_of_frame` from `metadata.rs`: starting offset (cast
`usize → u32`) plus direction slot plus `frame * cardinality`, in wrapping
`u32` arithmetic. -/
def Metadata.get_index_of_frame (m : Metadata) (index : Nat) (name : String)
    (dir : Dir) (frame : Nat) : Option Nat :=
  match m.get_icon_state index name with
  | none => none
  | some (firstIndex, firstState) =>
    some (u32 (u32 (u32 firstIndex + dirIdx firstState.dirs dir) +
      u32 (frame * firstState.dirs.get_num)))

end tinydmi

namespace dmi

open tinydmi

/-! ## `crates/dmm-tools/src/dmi.rs` -/

/-- The `Rect` struct from `dmi.rs` (absolute pixel coordinates). -/
structure Rect : Type where
  x : Nat
  y : Nat
  width : Nat
  height : Nat
  deriving DecidableEq, Repr

/-- One RGBA pixel (`image::Rgba([u8; 4])`), channels as `Nat`s in `0..=255`. -/
structure Rgba : Type where
  r : Nat
  g : Nat
  b : Nat
  a : Nat
  deriving DecidableEq, Repr

/-- An `image::RgbaImage`: dimensions plus a row-major pixel buffer. -/
structure RgbaImage : Type where
  width : Nat
  height : Nat
  data : List Rgba
  deriving DecidableEq, Repr

/-- Pixel of an `RgbaImage` at `(x, y)` (row-major). -/
def RgbaImage.pixelAt (img : RgbaImage) (x y : Nat) : Rgba :=
  (img.data.get? (y * img.width + x)).getD ⟨0, 0, 0, 0⟩

/-- The row-major pixel sequence of `image.view(r.x, r.y, r.width,
r.height).to_image()`: the pixels of the cropped rectangle. -/
def viewPixels (img : RgbaImage) (r : Rect) : List Rgba :=
  (List.range r.height).flatMap fun row =>
    (List.range r.width).map fun col => img.pixelAt (r.x + col) (r.y + row)

/-- The `IconFile` struct from `dmi.rs`. -/
structure IconFile : Type where
  metadata : Metadata
  image : RgbaImage

/-- The view rectangle that `IconFile::get_icon` passes to `self.image.view`:
`icon_count = image_width / cell_width`, top-left
`(index % icon_count, index / icon_count)` (the `usize → u32` cast reduced mod
`2^32`) with the header's cell dimensions.  The returned `SubImage` is exactly
the view of this rectangle. -/
def IconFile.get_icon_rect (f : IconFile) (index : Nat) : Rect :=
  let icon_count := f.image.width / f.metadata.header.width
  { x := u32 index % icon_count,
    y := u32 index / icon_count,
    width := f.metadata.header.width,
    height := f.metadata.header.height }

/-- The pixels of the sub-image returned by `IconFile::get_icon`. -/
def IconFile.get_icon (f : IconFile) (index : Nat) : List Rgba :=
  viewPixels f.image (f.get_icon_rect index)

/-- `IconFile::rect_of_index` from `dmi.rs`: cell coordinates scaled by the
cell dimensions (`u32` multiplications reduced mod `2^32`). -/
def IconFile.rect_of_index (f : IconFile) (icon_index : Nat) : Rect :=
  let icon_count := f.image.width / f.metadata.header.width
  { x := u32 (icon_index % icon_count * f.metadata.header.width),
    y := u32 (icon_index / icon_count * f.metadata.header.height),
    width := f.metadata.header.width,
    height := f.metadata.header.height }

/-- `mul255` from `composite` in `dmi.rs`: `(x as u32 * y as u32 / 255) as u8`. -/
def mul255 (x y : Nat) : Nat := u32 (x * y) / 255 % 256

/-- The tint pass of `composite`: each of the four channels of the source
pixel is multiplied (fixed-point) by the matching tint channel. -/
def tintPixel (fp tint : Rgba) : Rgba :=
  { r := mul255 fp.r tint.r, g := mul255 fp.g tint.g,
    b := mul255 fp.b tint.b, a := mul255 fp.a tint.a }

/-- One color channel of the over-blend in `composite`:
`((from*from_a + to*to_a*(255-from_a)/255) / out_alpha) as u8`,
performed in `u32` and cast back to `u8`. -/
def blendChannel (fc fa tc ta outA : Nat) : Nat :=
  u32 (u32 (fc * fa) + u32 (u32 (tc * ta) * (255 - fa)) / 255) / outA % 256

/-- The per-pixel body of `composite`'s `for_each`: tint the source pixel,
compute the over alpha, leave the destination untouched when it is zero,
otherwise blend the three color channels and store the new alpha. -/
def compositePixel (tint fp tp : Rgba) : Rgba :=
  let f := tintPixel fp tint
  let outA := (f.a + mul255 tp.a (255 - f.a)) % 256
  if outA = 0 then tp
  else
    { r := blendChannel f.r f.a tp.r tp.a outA,
      g := blendChannel f.g f.a tp.g tp.a outA,
      b := blendChannel f.b f.a tp.b tp.a outA,
      a := outA }

/-- The error message of `composite`'s bounds check (the dynamically formatted
rectangle and dimensions are not reproduced). -/
def boundsMsg : String := "Cannot get subview, out of bounds!"

/-- `composite` from `dmi.rs`.  The `&mut to` destination is passed explicitly
and returned: the bounds check happens before any write, so the error branch
returns the destination unchanged; otherwise the cropped source pixels are
zipped with the destination's pixel buffer (from its start — `composite` has
no destination offset) and each paired destination pixel is blended.
Destination pixels beyond the zipped prefix are untouched. -/
def composite («from» «to» : RgbaImage) (crop_from : Rect) (tint_color : Rgba) :
    Except String Unit × RgbaImage :=
  if u32 (crop_from.x + crop_from.width) > «from».width ∨
      u32 (crop_from.y + crop_from.height) > «from».height then
    (.error boundsMsg, «to»)
  else
    let image_copy := viewPixels «from» crop_from
    let zipped := List.zipWith (fun fp tp => compositePixel tint_color fp tp)
      image_copy «to».data
    (.ok (), { «to» with data := zipped ++ «to».data.drop zipped.length })

end dmi

namespace render

open tinydmi

/-! ## `crates/dmm-tools/src/dmi/render.rs`

`render.rs` is written against a tinydmi revision whose `State` stores a
`Frames` enum; that revision is not among the sources, so `Frames` and the
fields of its `State` are modelled from the spec (§3 *FrameSpec*). -/

/-- Modelled from the spec: the `FrameSpec`/`Frames` type — "either exactly
one frame, a bare frame count, or an explicit list of per-frame delay
durations (whose length is itself the frame count)".  (`tinydmi::prelude::
Frames`, imported by `render.rs` but absent from the sources.) -/
inductive Frames : Type
  | One : Frames
  | Count (count : Nat) : Frames
  | Delays (delays : List ℚ) : Frames
  deriving DecidableEq, Repr

/-- Modelled from the spec: the fields of the newer `State` that
`render_frames`/`render_gif` read (`dirs`, `frames`, `rewind`). -/
structure RState : Type where
  dirs : Dirs
  frames : Frames
  rewind : Bool
  deriving DecidableEq, Repr

/-- The `match &icon_state.frames` at the top of `IconRenderer::render_frames`
(and, restricted to the animated cases, of `render_gif`): the number of
logical frames. -/
def framesCount : Frames → Nat
  | Frames.One => 1
  | Frames.Count count => count
  | Frames.Delays delays => delays.length

/-- The frame-index sequence iterated by `IconRenderer::render_frames` and
`IconRenderer::render_gif`: `(0..frames).chain((0..frames).rev())` when the
state's rewind flag is set, plain `0..frames` otherwise.  One output canvas /
encoded GIF frame is emitted per element. -/
def frameSequence (icon_state : RState) : List Nat :=
  let frames := framesCount icon_state.frames
  if icon_state.rewind then
    List.range frames ++ (List.range frames).reverse
  else
    List.range frames

end render

namespace tinydmi

/-! ## Proof-side definitions -/

/-- Total cell count of a run of states: the sum of
`frames * dirs.get_num()` (the spec's `cell_count`) over the run. -/
def cellSum (states : List State) : Nat :=
  (states.map fun s => s.frames * s.dirs.get_num).sum

/-- The sequence of `(starting offset, state)` pairs produced by the cursor of
`metadataFoldStep` when started at cursor value `c` (proof helper). -/
def offsetsFrom (c : Nat) : List State → List (Nat × State)
  | [] => []
  | s :: rest =>
    (c, s) :: offsetsFrom (u32 (c + u32 (s.frames * s.dirs.get_num))) rest

/-- The direction-slot table exactly as the claim states it: slot 0 for
single-direction states; north 1, east 2, west 3 for four- and
eight-direction states; southeast 4, southwest 5, northeast 6, northwest 7
for eight-direction states; south and any direction outside the declared
direction count fall back to slot 0. -/
def dirSlotSpec (dirs : Dirs) (dir : Dir) : Nat :=
  match dirs with
  | Dirs.One => 0
  | Dirs.Four =>
    match dir with
    | Dir.North => 1
    | Dir.East => 2
    | Dir.West => 3
    | _ => 0
  | Dirs.Eight =>
    match dir with
    | Dir.North => 1
    | Dir.East => 2
    | Dir.West => 3
    | Dir.Southeast => 4
    | Dir.Southwest => 5
    | Dir.Northeast => 6
    | Dir.Northwest => 7
    | Dir.South => 0

end tinydmi

/-! # Theorems -/

namespace tinydmi

/-- The code's direction-slot match agrees with the claim's table. -/
theorem dirIdx_eq_dirSlotSpec (dirs : Dirs) (dir : Dir) :
    dirIdx dirs dir = dirSlotSpec dirs dir := by
  cases dirs <;> cases dir <;> rfl

/-- The direction slot never exceeds 7. -/
theorem dirIdx_le_seven (dirs : Dirs) (dir : Dir) : dirIdx dirs dir ≤ 7 := by
  cases dirs <;> cases dir <;> simp [dirIdx]

end tinydmi

/-- C5: for every direction `d`, `flip (flip d) = d` and eight applications of
`clockwise_45` return `d`; but the claimed inverse law
`clockwise_90 (counterclockwise_90 d) = d` fails at `d = Northwest`, where the
code yields `Northeast` (the `Southwest => Northeast` arm of `clockwise_90`).
-/
theorem c5_direction_closure :
    (∀ d : tinydmi.Dir, d.flip.flip = d) ∧
    (∀ d : tinydmi.Dir,
      d.clockwise_45.clockwise_45.clockwise_45.clockwise_45.clockwise_45.clockwise_45.clockwise_45.clockwise_45
        = d) ∧
    tinydmi.Dir.Northwest.counterclockwise_90.clockwise_90 =
      tinydmi.Dir.Northeast ∧
    tinydmi.Dir.Northeast ≠ tinydmi.Dir.Northwest := by
  refine ⟨fun d => ?_, fun d => ?_, rfl, by decide⟩ <;> cases d <;> rfl

/-- C7: with the rewind flag set, the emitted frame-index sequence is the
forward sequence `0..n-1` immediately followed by its full reverse `n-1..0`
(length `2n`; `[0, 1, 1, 0]` for `n = 2`); with rewind unset it is exactly
`0..n-1`. -/
theorem c7_rewind_frame_sequence (s : render.RState) (n : Nat)
    (hn : render.framesCount s.frames = n) :
    (s.rewind = true →
      render.frameSequence s = List.range n ++ (List.range n).reverse ∧
      (render.frameSequence s).length = 2 * n ∧
      (n = 2 → render.frameSequence s = [0, 1, 1, 0])) ∧
    (s.rewind = false → render.frameSequence s = List.range n) := by
  unfold render.frameSequence
  rw [hn]
  constructor
  · intro hr
    rw [hr]
    refine ⟨rfl, ?_, ?_⟩
    · simp [List.length_append, List.length_range]
      omega
    · intro h2
      subst h2
      rfl
  · intro hr
    rw [hr]
    rfl

/-- Witness for C7 at a concrete two-frame rewinding state. -/
theorem c7_rewind_frame_sequence_witness :
    render.frameSequence ⟨tinydmi.Dirs.One, render.Frames.Count 2, true⟩ =
      [0, 1, 1, 0] :=
  ((c7_rewind_frame_sequence ⟨tinydmi.Dirs.One, render.Frames.Count 2, true⟩ 2
    rfl).1 rfl).2.2 rfl

/-- C3: the two sprite-sheet addressing computations disagree.  For a 64×32
image with 32×32 cells (two columns), `get_icon` views the rectangle with
top-left `(1, 0)` for absolute index 1 — the cell coordinates are not scaled
by the cell dimensions — while `rect_of_index 1` gives top-left `(32, 0)`. -/
theorem c3_get_icon_vs_rect_of_index :
    (dmi.IconFile.get_icon_rect
        ⟨⟨⟨4, 32, 32, none⟩, []⟩, ⟨64, 32, []⟩⟩ 1 = ⟨1, 0, 32, 32⟩) ∧
    (dmi.IconFile.rect_of_index
        ⟨⟨⟨4, 32, 32, none⟩, []⟩, ⟨64, 32, []⟩⟩ 1 = ⟨32, 0, 32, 32⟩) ∧
    dmi.IconFile.get_icon_rect ⟨⟨⟨4, 32, 32, none⟩, []⟩, ⟨64, 32, []⟩⟩ 1 ≠
      dmi.IconFile.rect_of_index ⟨⟨⟨4, 32, 32, none⟩, []⟩, ⟨64, 32, []⟩⟩ 1 := by
  refine ⟨by decide, by decide, by decide⟩

/-- C4: a `delay` key/value with no `frames` key/value is *accepted* by
`State::try_from` (the delay guard only rejects a second delay), so a state
block with a delay line and no frames line does not fail as claimed; the
string-level `state` parser likewise succeeds on the crate's own
`fail_delay_without_frames` test input (stopping before the delay line, which
the list parser cannot consume); and a second `frames` key is accepted
whenever the first set `frames = 1` (the guard tests the value, not
presence). -/
theorem c4_delay_without_frames_accepted :
    (tinydmi.State.tryFrom "bluespace_coffee"
        [tinydmi.KeyValue.dirs tinydmi.Dirs.One,
         tinydmi.KeyValue.delay [1, 2, 5.4, 3]] =
      .ok ⟨"bluespace_coffee", tinydmi.Dirs.One, 1, some [1, 2, 5.4, 3],
        false, false, false, none, none⟩) ∧
    (tinydmi.state
        "state = \"bluespace_coffee\"\n    dirs = 1\n    delay = 1,2,5.4,3\nstate = \"...\"".toList =
      some ("    delay = 1,2,5.4,3\nstate = \"...\"".toList,
        ⟨"bluespace_coffee", tinydmi.Dirs.One, 1, none, false, false, false,
          none, none⟩)) ∧
    (tinydmi.State.tryFrom "s"
        [tinydmi.KeyValue.dirs tinydmi.Dirs.One, tinydmi.KeyValue.frames 1,
         tinydmi.KeyValue.frames 7] =
      .ok ⟨"s", tinydmi.Dirs.One, 7, none, false, false, false, none, none⟩) := by
  exact ⟨rfl, by decide, rfl⟩

/-- C6: the grammar admits `frames = 0` (any `<uint>`), and the `state` parser
then yields a state with frame count 0 — on which `State::is_animated` reaches
its `unreachable!()` arm (modelled as `none`), i.e. panics, contradicting the
claim that it is total with `is_animated ⇔ frames > 1`. -/
theorem c6_is_animated_panics_on_zero_frames :
    (tinydmi.state "state = \"s\"\n    dirs = 1\n    frames = 0\n".toList =
      some ([], ⟨"s", tinydmi.Dirs.One, 0, none, false, false, false, none,
        none⟩)) ∧
    tinydmi.State.is_animated
      ⟨"s", tinydmi.Dirs.One, 0, none, false, false, false, none, none⟩ =
      none := by
  exact ⟨by decide, rfl⟩

/-- C10 counterexample: the line fragment `delay = 2.5` does not parse as a
key/value at all — `atom_list` demands a separator after the first float, the
value falls through to a bare float atom, and `Key::Delay` with `Value::Float`
is a combination error — contradicting the claim that it yields the
one-element delay list `[2.5]`. -/
theorem c10_single_float_delay_counterexample :
    tinydmi.key_value "delay = 2.5".toList = none := by decide

/-- C10 (amended): a list value consisting of exactly one float with no
following separator is rejected: whenever `float` consumes the entire input,
the polyfilled separated list fails because the separator is missing. -/
theorem c10_single_float_rejected (input tok : List Char)
    (h : tinydmi.recognizeFloat input = some ([], tok)) :
    tinydmi.atom_list input = none := by
  unfold tinydmi.atom_list tinydmi.mapP tinydmi.separatedList1Nonoptional
  unfold tinydmi.nomFloat
  rw [h]
  rfl

/-- Witness for the amended C10 at the claim's own example `2.5`. -/
theorem c10_single_float_rejected_witness :
    tinydmi.recognizeFloat "2.5".toList = some ([], "2.5".toList) ∧
    tinydmi.atom_list "2.5".toList = none :=
  ⟨by decide, c10_single_float_rejected "2.5".toList "2.5".toList (by decide)⟩

/-- C2: whenever a state occurrence resolves to `(offset o, state st)` and the
result fits in `u32`, `get_index_of_frame` returns
`o + slot(st.dirs, d) + frame * cardinality(st.dirs)` with the fixed slot
table of the claim (`dirSlotSpec`): slot 0 for one-direction states, north 1 /
east 2 / west 3 for four and eight directions, the four diagonals 4–7 for
eight directions, and south or any out-of-range direction falling back to
slot 0 rather than erroring. -/
theorem c2_get_index_of_frame (m : tinydmi.Metadata) (index : Nat)
    (name : String) (d : tinydmi.Dir) (frame o : Nat) (st : tinydmi.State)
    (h : m.get_icon_state index name = some (o, st))
    (hb : o + 7 + frame * st.dirs.get_num < 2 ^ 32) :
    m.get_index_of_frame index name d frame =
      some (o + tinydmi.dirSlotSpec st.dirs d + frame * st.dirs.get_num) := by
  unfold tinydmi.Metadata.get_index_of_frame
  rw [h]
  have hslot := tinydmi.dirIdx_eq_dirSlotSpec st.dirs d
  have hle := tinydmi.dirIdx_le_seven st.dirs d
  have h1 : tinydmi.u32 o = o := Nat.mod_eq_of_lt (by omega)
  have h2 : tinydmi.u32 (frame * st.dirs.get_num) = frame * st.dirs.get_num :=
    Nat.mod_eq_of_lt (by omega)
  simp only [tinydmi.u32, h1, h2] at *
  rw [Nat.mod_eq_of_lt (by omega), Nat.mod_eq_of_lt (by omega), hslot, h1, h2]

/-- Witness for C2: a two-occurrence metadata where the second occurrence of
`"open"` (offset 1, four directions, two frames) resolves east/frame 1 to
cell `1 + 2 + 1*4 = 7`. -/
theorem c2_get_index_of_frame_witness :
    tinydmi.Metadata.get_index_of_frame
      ⟨⟨4, 32, 32, none⟩, tinydmi.buildStateMap
        [⟨"open", tinydmi.Dirs.One, 1, none, false, false, false, none, none⟩,
         ⟨"open", tinydmi.Dirs.Four, 2, none, false, false, false, none, none⟩]⟩
      1 "open" tinydmi.Dir.East 1 = some 7 :=
  (c2_get_index_of_frame
    ⟨⟨4, 32, 32, none⟩, tinydmi.buildStateMap
      [⟨"open", tinydmi.Dirs.One, 1, none, false, false, false, none, none⟩,
       ⟨"open", tinydmi.Dirs.Four, 2, none, false, false, false, none, none⟩]⟩
    1 "open" tinydmi.Dir.East 1 1
    ⟨"open", tinydmi.Dirs.Four, 2, none, false, false, false, none, none⟩
    (by decide) (by decide)).trans (by decide)

/-- C8: with in-range (`u32`) crop arithmetic, `composite` returns the bounds
error — with the destination untouched, since the check precedes every
write — exactly when the crop rectangle extends past the source's width or
height; a crop inside the source never yields a bounds error. -/
theorem c8_composite_bounds («from» «to» : dmi.RgbaImage) (crop : dmi.Rect)
    (tint : dmi.Rgba)
    (hx : crop.x + crop.width < 2 ^ 32) (hy : crop.y + crop.height < 2 ^ 32) :
    ((crop.x + crop.width > «from».width ∨
        crop.y + crop.height > «from».height) →
      dmi.composite «from» «to» crop tint = (.error dmi.boundsMsg, «to»)) ∧
    (crop.x + crop.width ≤ «from».width →
      crop.y + crop.height ≤ «from».height →
      (dmi.composite «from» «to» crop tint).1 = .ok ()) := by
  unfold dmi.composite
  rw [show tinydmi.u32 (crop.x + crop.width) = crop.x + crop.width from
      Nat.mod_eq_of_lt hx,
    show tinydmi.u32 (crop.y + crop.height) = crop.y + crop.height from
      Nat.mod_eq_of_lt hy]
  constructor
  · intro hbad
    rw [if_pos hbad]
  · intro hx' hy'
    rw [if_neg (by omega)]

/-- Witness for C8: a 3-wide crop of a 2×2 source errors and leaves the
destination untouched; the full in-bounds crop does not error. -/
theorem c8_composite_bounds_witness :
    (dmi.composite ⟨2, 2, []⟩ ⟨1, 1, [⟨1, 2, 3, 4⟩]⟩ ⟨0, 0, 3, 1⟩
        ⟨255, 255, 255, 255⟩ =
      (.error dmi.boundsMsg, ⟨1, 1, [⟨1, 2, 3, 4⟩]⟩)) ∧
    ((dmi.composite ⟨2, 2, []⟩ ⟨1, 1, [⟨1, 2, 3, 4⟩]⟩ ⟨0, 0, 2, 2⟩
        ⟨255, 255, 255, 255⟩).1 = .ok ()) :=
  ⟨(c8_composite_bounds ⟨2, 2, []⟩ ⟨1, 1, [⟨1, 2, 3, 4⟩]⟩ ⟨0, 0, 3, 1⟩
      ⟨255, 255, 255, 255⟩ (by decide) (by decide)).1 (Or.inl (by decide)),
   (c8_composite_bounds ⟨2, 2, []⟩ ⟨1, 1, [⟨1, 2, 3, 4⟩]⟩ ⟨0, 0, 2, 2⟩
      ⟨255, 255, 255, 255⟩ (by decide) (by decide)).2 (by decide) (by decide)⟩

/-- Tinting a channel that fits in a byte by 255 is the identity. -/
theorem mul255_by_255 (c : Nat) (hc : c ≤ 255) : dmi.mul255 c 255 = c := by
  unfold dmi.mul255 tinydmi.u32
  rw [Nat.mod_eq_of_lt (show c * 255 < 2 ^ 32 by omega),
    Nat.mul_div_cancel c (by omega), Nat.mod_eq_of_lt (by omega)]

/-- Tinting by 0 yields 0. -/
theorem mul255_by_zero (c : Nat) : dmi.mul255 c 0 = 0 := by
  unfold dmi.mul255 tinydmi.u32
  simp

/-- The blend of a channel with itself at full source alpha is the identity. -/
theorem blendChannel_self (c : Nat) (hc : c ≤ 255) :
    dmi.blendChannel c 255 c 255 255 = c := by
  unfold dmi.blendChannel tinydmi.u32
  have h1 : c * 255 < 2 ^ 32 := by omega
  simp only [Nat.sub_self, Nat.mul_zero, Nat.zero_mod, Nat.zero_div,
    Nat.add_zero, Nat.mod_eq_of_lt h1]
  rw [Nat.mul_div_cancel c (by omega), Nat.mod_eq_of_lt (by omega)]

/-- A fully opaque pixel composited onto an identical destination pixel with
the no-tint color reproduces the destination pixel. -/
theorem compositePixel_self (p : dmi.Rgba) (ha : p.a = 255) (hr : p.r ≤ 255)
    (hg : p.g ≤ 255) (hb : p.b ≤ 255) :
    dmi.compositePixel ⟨255, 255, 255, 255⟩ p p = p := by
  obtain ⟨r, g, b, a⟩ := p
  simp only at ha hr hg hb
  subst ha
  unfold dmi.compositePixel dmi.tintPixel
  simp only [mul255_by_255 r hr, mul255_by_255 g hg, mul255_by_255 b hb,
    mul255_by_255 255 (by omega), Nat.sub_self, mul255_by_zero,
    Nat.add_zero, Nat.mod_eq_of_lt (show (255 : Nat) < 256 by omega)]
  rw [if_neg (by omega)]
  simp [blendChannel_self r hr, blendChannel_self g hg, blendChannel_self b hb]

/-- If the paired elements of a zip are fixed by the combining function, the
blended prefix plus the untouched suffix reproduce the second list. -/
theorem zipWith_fixed_append {α : Type} (f : α → α → α) :
    ∀ (l₁ l₂ : List α), (∀ pr ∈ l₁.zip l₂, f pr.1 pr.2 = pr.2) →
      List.zipWith f l₁ l₂ ++ l₂.drop (List.zipWith f l₁ l₂).length = l₂
  | [], l₂, _ => by simp
  | _ :: _, [], _ => by simp
  | x :: l₁, y :: l₂, h => by
    have hxy : f x y = y := h (x, y) (by simp)
    have ih := zipWith_fixed_append f l₁ l₂ (fun pr hm => h pr (by simp [hm]))
    simp only [List.zipWith_cons_cons, List.length_cons, List.drop_succ_cons,
      List.cons_append, hxy]
    rw [ih]

/-- C9: compositing a crop whose pixels are fully opaque, byte-valued and
pixel-for-pixel identical to the paired destination content, with tint
`(255,255,255,255)`, leaves the destination image completely unchanged. -/
theorem c9_composite_identity («from» «to» : dmi.RgbaImage) (crop : dmi.Rect)
    (hx : tinydmi.u32 (crop.x + crop.width) ≤ «from».width)
    (hy : tinydmi.u32 (crop.y + crop.height) ≤ «from».height)
    (hpair : ∀ pr ∈ (dmi.viewPixels «from» crop).zip «to».data,
      pr.1 = pr.2 ∧ pr.1.a = 255 ∧ pr.1.r ≤ 255 ∧ pr.1.g ≤ 255 ∧
        pr.1.b ≤ 255) :
    dmi.composite «from» «to» crop ⟨255, 255, 255, 255⟩ = (.ok (), «to») := by
  unfold dmi.composite
  rw [if_neg (by omega)]
  have hdata :
      List.zipWith (fun fp tp => dmi.compositePixel ⟨255, 255, 255, 255⟩ fp tp)
          (dmi.viewPixels «from» crop) «to».data ++
        «to».data.drop
          (List.zipWith
            (fun fp tp => dmi.compositePixel ⟨255, 255, 255, 255⟩ fp tp)
            (dmi.viewPixels «from» crop) «to».data).length = «to».data := by
    refine zipWith_fixed_append _ _ _ (fun pr hm => ?_)
    obtain ⟨heq, ha, hr, hg, hb⟩ := hpair pr hm
    rw [heq] at ha hr hg hb ⊢
    exact compositePixel_self pr.2 ha hr hg hb
  dsimp only
  rw [hdata]

namespace tinydmi

/-- Pushing under a name and reading that name back appends the entry. -/
theorem StateMap.get_push_self (m : StateMap) (n : String) (e : Nat × State) :
    (m.push n e).get n = some ((m.get n).getD [] ++ [e]) := by
  induction m with
  | nil => simp [StateMap.push, StateMap.get]
  | cons kv rest ih =>
    obtain ⟨k, v⟩ := kv
    by_cases hk : k = n
    · subst hk
      simp [StateMap.push, StateMap.get]
    · simp [StateMap.push, StateMap.get, hk, ih]

/-- Pushing under a different name leaves a lookup unchanged. -/
theorem StateMap.get_push_ne (m : StateMap) (n : String) (e : Nat × State)
    (name : String) (hne : n ≠ name) :
    (m.push n e).get name = m.get name := by
  induction m with
  | nil => simp [StateMap.push, StateMap.get, hne]
  | cons kv rest ih =>
    obtain ⟨k, v⟩ := kv
    by_cases hk : k = n
    · subst hk
      simp [StateMap.push, StateMap.get, hne]
    · simp [StateMap.push, StateMap.get, hk, ih]

/-- Lookup after the `metadata` fold: the entries stored under a name are the
name's entries in the cursor sequence `offsetsFrom c states`, appended to
whatever the accumulator map already held. -/
theorem foldl_metadataFoldStep_get (states : List State) :
    ∀ (m : StateMap) (c : Nat) (name : String),
      StateMap.get (states.foldl metadataFoldStep (m, c)).1 name =
        match StateMap.get m name with
        | some v =>
          some (v ++ (offsetsFrom c states).filter fun pr => pr.2.name = name)
        | none =>
          if ((offsetsFrom c states).filter fun pr => pr.2.name = name).isEmpty
          then none
          else some ((offsetsFrom c states).filter fun pr => pr.2.name = name) := by
  induction states with
  | nil =>
    intro m c name
    cases h : StateMap.get m name <;> simp [offsetsFrom, h]
  | cons s rest ih =>
    intro m c name
    rw [List.foldl_cons]
    show StateMap.get
        (rest.foldl metadataFoldStep
          (m.push s.name (c, s), u32 (c + u32 (s.frames * s.dirs.get_num)))).1
        name = _
    rw [ih]
    have hfc : List.filter (fun pr => decide (pr.2.name = name))
        (offsetsFrom c (s :: rest)) =
        if s.name = name then
          (c, s) :: List.filter (fun pr => decide (pr.2.name = name))
            (offsetsFrom (u32 (c + u32 (s.frames * s.dirs.get_num))) rest)
        else List.filter (fun pr => decide (pr.2.name = name))
          (offsetsFrom (u32 (c + u32 (s.frames * s.dirs.get_num))) rest) := by
      by_cases hn : s.name = name <;> simp [offsetsFrom, List.filter_cons, hn]
    by_cases hn : s.name = name
    · rw [show (m.push s.name (c, s)).get name =
            some ((m.get name).getD [] ++ [(c, s)]) from hn ▸
          StateMap.get_push_self m s.name (c, s)]
      rw [hfc, if_pos hn]
      cases h : StateMap.get m name <;> simp [h]
    · rw [StateMap.get_push_ne m s.name (c, s) name hn]
      rw [hfc, if_neg hn]

/-- `offsetsFrom` pairs each state with its running-cursor offset: with no
`u32` overflow, the `i`-th entry is `(c + cellSum (states.take i), states_i)`.
-/
theorem offsetsFrom_getElem? :
    ∀ (states : List State) (c i : Nat) (hi : i < states.length),
      c + cellSum states < 2 ^ 32 →
      (offsetsFrom c states)[i]? =
        some (c + cellSum (states.take i), states[i])
  | [], _, i, hi, _ => absurd hi (by simp)
  | s :: rest, c, 0, _, _ => by
    simp [offsetsFrom, cellSum]
  | s :: rest, c, i + 1, hi, hb => by
    have hcell : cellSum (s :: rest) = s.frames * s.dirs.get_num + cellSum rest := by
      simp [cellSum]
    rw [hcell] at hb
    have hprod : u32 (s.frames * s.dirs.get_num) = s.frames * s.dirs.get_num :=
      Nat.mod_eq_of_lt (by omega)
    have hcur : u32 (c + u32 (s.frames * s.dirs.get_num)) =
        c + s.frames * s.dirs.get_num := by
      rw [hprod]
      exact Nat.mod_eq_of_lt (by omega)
    have hi' : i < rest.length := by simpa using hi
    have ih := offsetsFrom_getElem? rest (c + s.frames * s.dirs.get_num) i hi'
      (by omega)
    simp only [offsetsFrom, hcur, List.getElem?_cons_succ, ih,
      List.take_succ_cons, List.getElem_cons_succ]
    congr 2
    simp [cellSum]
    omega

/-- `offsetsFrom` has one entry per state. -/
theorem offsetsFrom_length :
    ∀ (states : List State) (c : Nat),
      (offsetsFrom c states).length = states.length
  | [], _ => rfl
  | _ :: rest, c => by simp [offsetsFrom, offsetsFrom_length rest]

/-- Filtering commutes with the pairing of `offsetsFrom` as far as counting a
name in a prefix goes. -/
theorem offsetsFrom_filter_take_length :
    ∀ (states : List State) (c i : Nat) (nm : String),
      (((offsetsFrom c states).take i).filter fun pr => pr.2.name = nm).length
        = ((states.take i).filter fun s => s.name = nm).length
  | [], _, _, _ => by simp [offsetsFrom]
  | s :: rest, c, 0, nm => by simp [offsetsFrom]
  | s :: rest, c, i + 1, nm => by
    by_cases hn : s.name = nm <;>
      simp [offsetsFrom, List.filter_cons, hn,
        offsetsFrom_filter_take_length rest _ i nm]

/-- A filtered list, read at the position counting the matching elements of
the unfiltered prefix, returns the original element. -/
theorem filter_getElem?_count {α : Type} (p : α → Bool) :
    ∀ (l : List α) (i : Nat) (hi : i < l.length),
      p l[i] = true →
      (l.filter p)[((l.take i).filter p).length]? = some l[i]
  | [], i, hi, _ => absurd hi (by simp)
  | x :: l, 0, _, hp => by
    simp only [List.getElem_cons_zero] at hp ⊢
    simp [List.filter_cons, hp]
  | x :: l, i + 1, hi, hp => by
    have hi' : i < l.length := by simpa using hi
    simp only [List.getElem_cons_succ] at hp ⊢
    have ih := filter_getElem?_count p l i hi' hp
    by_cases hx : p x = true
    · simp [List.filter_cons, hx, List.take_succ_cons, ih]
    · simp [List.filter_cons, hx, List.take_succ_cons, ih]

end tinydmi

/-- C1: for every run of states in declaration order (as produced by a
successful `metadata` parse) whose total cell count fits in `u32`, the entry
the fold stores for the `i`-th state — looked up through
`Metadata::get_icon_state` at the state's name and its occurrence index among
earlier same-named states — carries the starting offset
`Σ_{j<i} frames_j * cardinality_j` (so the first state's offset is 0, and
duplicate names keep distinct offsets). -/
theorem c1_offsets_are_prefix_sums (hdr : tinydmi.Header)
    (states : List tinydmi.State)
    (h : tinydmi.cellSum states < 2 ^ 32) (i : Nat) (hi : i < states.length) :
    tinydmi.Metadata.get_icon_state ⟨hdr, tinydmi.buildStateMap states⟩
      (((states.take i).filter fun s => s.name = states[i].name).length)
      states[i].name =
    some (tinydmi.cellSum (states.take i), states[i]) := by
  have hlen : i < (tinydmi.offsetsFrom 0 states).length := by
    rw [tinydmi.offsetsFrom_length]
    exact hi
  have hofs := tinydmi.offsetsFrom_getElem? states 0 i hi (by omega)
  have hget : (tinydmi.offsetsFrom 0 states)[i] =
      (0 + tinydmi.cellSum (states.take i), states[i]) := by
    rw [List.getElem?_eq_getElem hlen] at hofs
    exact Option.some.inj hofs
  have hp : (fun pr : Nat × tinydmi.State =>
      decide (pr.2.name = states[i].name)) (tinydmi.offsetsFrom 0 states)[i]
      = true := by
    rw [hget]
    simp
  have hfil := tinydmi.filter_getElem?_count
    (fun pr : Nat × tinydmi.State => decide (pr.2.name = states[i].name))
    (tinydmi.offsetsFrom 0 states) i hlen hp
  rw [hget] at hfil
  rw [tinydmi.offsetsFrom_filter_take_length states 0 i states[i].name] at hfil
  have hne : (((tinydmi.offsetsFrom 0 states).filter fun pr =>
      pr.2.name = states[i].name)).isEmpty = false := by
    by_contra hcontra
    have hemp : ((tinydmi.offsetsFrom 0 states).filter fun pr =>
        pr.2.name = states[i].name) = [] := by
      cases hl : ((tinydmi.offsetsFrom 0 states).filter fun pr =>
          pr.2.name = states[i].name) with
      | nil => rfl
      | cons a l => simp [hl] at hcontra
    rw [hemp] at hfil
    simp at hfil
  unfold tinydmi.Metadata.get_icon_state
  unfold tinydmi.buildStateMap
  rw [tinydmi.foldl_metadataFoldStep_get states [] 0 states[i].name]
  show (match (if ((tinydmi.offsetsFrom 0 states).filter fun pr =>
        pr.2.name = states[i].name).isEmpty = true then none
      else some ((tinydmi.offsetsFrom 0 states).filter fun pr =>
        pr.2.name = states[i].name)) with
    | none => none
    | some v => v.get? (((states.take i).filter fun s =>
        s.name = states[i].name).length)) =
    some (tinydmi.cellSum (states.take i), states[i])
  rw [hne]
  show ((tinydmi.offsetsFrom 0 states).filter fun pr =>
      pr.2.name = states[i].name).get? (((states.take i).filter fun s =>
        s.name = states[i].name).length) = _
  rw [List.get?_eq_getElem?, hfil, Nat.zero_add]

/-- Witness for C1: two states both named `"open"` (1×1 then 4×2 cells);
occurrence 1 is stored with offset `cell_count(S₁) = 1`. -/
theorem c1_offsets_are_prefix_sums_witness :
    tinydmi.Metadata.get_icon_state
      ⟨⟨4, 32, 32, none⟩, tinydmi.buildStateMap
        [⟨"open", tinydmi.Dirs.One, 1, none, false, false, false, none, none⟩,
         ⟨"open", tinydmi.Dirs.Four, 2, none, false, false, false, none, none⟩]⟩
      1 "open" =
    some (1,
      ⟨"open", tinydmi.Dirs.Four, 2, none, false, false, false, none, none⟩) :=
  (c1_offsets_are_prefix_sums ⟨4, 32, 32, none⟩
    [⟨"open", tinydmi.Dirs.One, 1, none, false, false, false, none, none⟩,
     ⟨"open", tinydmi.Dirs.Four, 2, none, false, false, false, none, none⟩]
    (by decide) 1 (by decide)).trans (by decide)

/-- Witness for C9: a 1×1 fully opaque source composited onto an identical
1×1 destination leaves it unchanged. -/
theorem c9_composite_identity_witness :
    dmi.composite ⟨1, 1, [⟨10, 20, 30, 255⟩]⟩ ⟨1, 1, [⟨10, 20, 30, 255⟩]⟩
      ⟨0, 0, 1, 1⟩ ⟨255, 255, 255, 255⟩ =
      (.ok (), ⟨1, 1, [⟨10, 20, 30, 255⟩]⟩) :=
  c9_composite_identity ⟨1, 1, [⟨10, 20, 30, 255⟩]⟩ ⟨1, 1, [⟨10, 20, 30, 255⟩]⟩
    ⟨0, 0, 1, 1⟩ (by decide) (by decide) (by decide)
